import Mathlib

/-!
Verification of the Conductor orchestration engine against its
natural-language specification.

The definitions below are a shallow embedding of the TypeScript source:
JavaScript strings are lists of UTF-16 code units (`List Nat`), database
rows are structures, enum-like string unions are inductive types, and
code that can throw returns `Except`.  Each embedded function mirrors one
function of the source tree (named in its doc comment).
-/

/-- JavaScript strings, as their list of UTF-16 code units. -/
abbrev Str := List Nat

/-- Code units of a Lean string literal (ASCII in all our uses). -/
def strToUnits (s : String) : Str := s.data.map Char.toNat

/-- Task statuses, from `TaskStatus` in packages/core/src/types/index.ts. -/
inductive TaskStatus where
  | pending
  | decomposing
  | executing
  | review
  | human_review
  | pr_created
  | done
  | failed
deriving DecidableEq, Repr

/-- Subtask statuses, from `SubtaskStatus` in packages/core/src/types/index.ts. -/
inductive SubtaskStatus where
  | pending
  | queued
  | running
  | completed
  | failed
deriving DecidableEq, Repr

/-- Agent-run statuses, from `agentRunStatusValues` in the schema. -/
inductive AgentRunStatus where
  | starting
  | running
  | completed
  | failed
  | timeout
deriving DecidableEq, Repr

/-- Code-review results, from `CodeReviewResult`. -/
inductive CodeReviewResult where
  | approved
  | changes_requested
  | failed
deriving DecidableEq, Repr

/-- Issue severities, from the `issues` column type of `code_reviews`. -/
inductive Severity where
  | error
  | warning
  | suggestion
deriving DecidableEq, Repr

/-- `TASK_STATUS_TRANSITIONS` from packages/core/src/constants/index.ts. -/
def TASK_STATUS_TRANSITIONS : TaskStatus → List TaskStatus
  | .pending => [.decomposing, .failed]
  | .decomposing => [.executing, .human_review, .failed]
  | .executing => [.review, .human_review, .failed]
  | .review => [.pr_created, .executing, .human_review, .failed]
  | .human_review => [.decomposing, .executing, .failed]
  | .pr_created => [.done, .human_review, .failed]
  | .done => []
  | .failed => [.pending]

/-- `SUBTASK_STATUS_TRANSITIONS` from packages/core/src/constants/index.ts. -/
def SUBTASK_STATUS_TRANSITIONS : SubtaskStatus → List SubtaskStatus
  | .pending => [.queued, .running, .failed]
  | .queued => [.running, .failed]
  | .running => [.running, .completed, .failed]
  | .completed => []
  | .failed => [.pending]

/-- A row of the `tasks` table (the columns the verified handlers touch). -/
structure TaskRow where
  id : Nat
  githubProjectItemId : Nat
  githubProjectId : Nat
  repositoryFullName : Str
  installationId : Nat
  title : Str
  description : Option Str
  status : TaskStatus
  branchName : Option Str
  pullRequestNumber : Option Nat
  pullRequestUrl : Option Str
  errorMessage : Option Str
  humanReviewQuestion : Option Str
  humanReviewAnswer : Option Str
  retryCount : Nat
  isEpic : Bool
  parentTaskId : Option Nat
  childDependencies : List Str
  createdAt : Nat
  updatedAt : Nat
  startedAt : Option Nat
  completedAt : Option Nat
deriving DecidableEq, Repr

/-- A row of the `subtasks` table. -/
structure SubtaskRow where
  id : Nat
  taskId : Nat
  subprojectPath : Str
  title : Str
  status : SubtaskStatus
  dependsOn : List Nat
  agentRunId : Option Nat
  filesModified : List Str
  errorMessage : Option Str
  updatedAt : Nat
  startedAt : Option Nat
  completedAt : Option Nat
deriving DecidableEq, Repr

/-- Errors thrown by the state machine (`InvalidStateTransitionError`). -/
inductive StateError where
  | invalidTaskTransition (entityId : Nat) (current target : TaskStatus)
  | invalidSubtaskTransition (entityId : Nat) (current target : SubtaskStatus)
deriving DecidableEq, Repr

/-- The optional update fields of `transitionTaskStatus`. -/
structure TaskTransitionOptions where
  errorMessage : Option Str
  branchName : Option Str
  pullRequestNumber : Option Nat
  pullRequestUrl : Option Str
  humanReviewQuestion : Option Str
deriving DecidableEq, Repr

/-- Empty option record (the `= {}` default of `transitionTaskStatus`). -/
def noTaskOptions : TaskTransitionOptions :=
  { errorMessage := none, branchName := none, pullRequestNumber := none,
    pullRequestUrl := none, humanReviewQuestion := none }

/-- `transitionTaskStatus` of packages/worker/src/state-machine.ts, acting on
the row it selected; `now` stands for `new Date()`. -/
def transitionTaskStatus (task : TaskRow) (targetStatus : TaskStatus)
    (options : TaskTransitionOptions) (now : Nat) : Except StateError TaskRow :=
  if targetStatus ∈ TASK_STATUS_TRANSITIONS task.status then
    Except.ok
      { task with
        status := targetStatus
        updatedAt := now
        errorMessage :=
          match options.errorMessage with
          | some m => some m
          | none => task.errorMessage
        branchName :=
          match options.branchName with
          | some b => some b
          | none => task.branchName
        pullRequestNumber :=
          match options.pullRequestNumber with
          | some n => some n
          | none => task.pullRequestNumber
        pullRequestUrl :=
          match options.pullRequestUrl with
          | some u => some u
          | none => task.pullRequestUrl
        humanReviewQuestion :=
          match options.humanReviewQuestion with
          | some q => some q
          | none => task.humanReviewQuestion
        startedAt :=
          if targetStatus = .decomposing ∧ task.startedAt = none then some now
          else task.startedAt
        completedAt :=
          if targetStatus = .done ∨ targetStatus = .failed then some now
          else task.completedAt }
  else
    Except.error (.invalidTaskTransition task.id task.status targetStatus)

/-- The optional update fields of `transitionSubtaskStatus`. -/
structure SubtaskTransitionOptions where
  errorMessage : Option Str
  filesModified : Option (List Str)
  agentRunId : Option Nat
deriving DecidableEq, Repr

/-- Empty option record for `transitionSubtaskStatus`. -/
def noSubtaskOptions : SubtaskTransitionOptions :=
  { errorMessage := none, filesModified := none, agentRunId := none }

/-- `transitionSubtaskStatus` of packages/worker/src/state-machine.ts. -/
def transitionSubtaskStatus (subtask : SubtaskRow) (targetStatus : SubtaskStatus)
    (options : SubtaskTransitionOptions) (now : Nat) : Except StateError SubtaskRow :=
  if targetStatus ∈ SUBTASK_STATUS_TRANSITIONS subtask.status then
    Except.ok
      { subtask with
        status := targetStatus
        updatedAt := now
        errorMessage :=
          match options.errorMessage with
          | some m => some m
          | none => subtask.errorMessage
        filesModified :=
          match options.filesModified with
          | some fs => fs
          | none => subtask.filesModified
        agentRunId :=
          match options.agentRunId with
          | some r => some r
          | none => subtask.agentRunId
        startedAt :=
          if targetStatus = .running ∧ subtask.startedAt = none then some now
          else subtask.startedAt
        completedAt :=
          if targetStatus = .completed ∨ targetStatus = .failed then some now
          else subtask.completedAt }
  else
    Except.error (.invalidSubtaskTransition subtask.id subtask.status targetStatus)

/-- C4: `transitionTaskStatus(taskId, target)` succeeds iff the edge
(current status → target) is in the task state table, and then it updates
`updated_at`, sets `started_at` on the first entry to `decomposing` (only
when `started_at` is unset), and sets `completed_at` on entry to `done` or
`failed`; for every non-edge it throws an `InvalidStateTransitionError`
and performs no update of the row. -/
theorem transitionTaskStatus_contract (task : TaskRow) (target : TaskStatus)
    (options : TaskTransitionOptions) (now : Nat) :
    ((∃ task', transitionTaskStatus task target options now = .ok task') ↔
        target ∈ TASK_STATUS_TRANSITIONS task.status)
    ∧ (∀ task', transitionTaskStatus task target options now = .ok task' →
        task'.status = target
        ∧ task'.updatedAt = now
        ∧ task'.startedAt =
            (if target = .decomposing ∧ task.startedAt = none then some now
             else task.startedAt)
        ∧ task'.completedAt =
            (if target = .done ∨ target = .failed then some now
             else task.completedAt))
    ∧ (target ∉ TASK_STATUS_TRANSITIONS task.status →
        transitionTaskStatus task target options now =
          .error (.invalidTaskTransition task.id task.status target)) := by
  refine ⟨⟨?_, ?_⟩, ?_, ?_⟩
  · intro ⟨task', h⟩
    by_contra hmem
    rw [transitionTaskStatus, if_neg hmem] at h
    exact Except.noConfusion h
  · intro hmem
    rw [transitionTaskStatus, if_pos hmem]
    exact ⟨_, rfl⟩
  · intro task' h
    by_cases hmem : target ∈ TASK_STATUS_TRANSITIONS task.status
    · rw [transitionTaskStatus, if_pos hmem] at h
      cases h
      exact ⟨rfl, rfl, rfl, rfl⟩
    · rw [transitionTaskStatus, if_neg hmem] at h
      exact Except.noConfusion h
  · intro hmem
    rw [transitionTaskStatus, if_neg hmem]

/-- A concrete task row used by several witnesses. -/
def sampleTask : TaskRow :=
  { id := 1, githubProjectItemId := 10, githubProjectId := 20,
    repositoryFullName := strToUnits "o/r", installationId := 1,
    title := strToUnits "Add hello", description := none,
    status := .pending, branchName := none, pullRequestNumber := none,
    pullRequestUrl := none, errorMessage := none,
    humanReviewQuestion := none, humanReviewAnswer := none,
    retryCount := 0, isEpic := false, parentTaskId := none,
    childDependencies := [], createdAt := 0, updatedAt := 0,
    startedAt := none, completedAt := none }

/-- Witness for `transitionTaskStatus_contract` at a concrete input:
pending → decomposing is an edge, so the transition succeeds. -/
theorem transitionTaskStatus_contract_witness :
    ∃ task', transitionTaskStatus sampleTask .decomposing noTaskOptions 5 = .ok task' :=
  (transitionTaskStatus_contract sampleTask .decomposing noTaskOptions 5).1.mpr
    (by decide)

/-! ### Queue model

BullMQ named queues: caller-supplied job ids act as dedup keys, so an
`add` with an id already present in the queue is a no-op.  The job-id
template strings of the source are mirrored by an inductive type
(distinct templates produce distinct strings). -/

/-- Task-queue actions, from the `TaskJob` payload type. -/
inductive TaskAction where
  | decompose
  | execute
  | review
  | fix
  | create_pr
  | smoke_test
deriving DecidableEq, Repr

/-- Job ids, mirroring the template strings used at each `queue.add` call:
`decompose-<t>`, `decompose-<t>-retry-<ts>`, `decompose-<t>-redo-<ts>`,
`check-complete-<t>`, `check-complete-<t>-<ts>`, `review-<t>`,
`review-<t>-<ts>`, `fix-<t>-iter-<n>`, `create-pr-<t>`, `smoke-test-<t>`,
`subtask-<s>`. -/
inductive JobId where
  | decompose (taskId : Nat)
  | decomposeRetry (taskId : Nat) (ts : Nat)
  | decomposeRedo (taskId : Nat) (ts : Nat)
  | checkComplete (taskId : Nat)
  | checkCompleteSalted (taskId : Nat) (ts : Nat)
  | review (taskId : Nat)
  | reviewSalted (taskId : Nat) (ts : Nat)
  | fixIter (taskId : Nat) (iter : Nat)
  | createPr (taskId : Nat)
  | smokeTest (taskId : Nat)
  | subtask (subtaskId : Nat)
deriving DecidableEq, Repr

/-- A queued task job: its dedup id and its `{taskId, action}` payload. -/
structure QueuedJob where
  jobId : JobId
  taskId : Nat
  action : TaskAction
deriving DecidableEq, Repr

/-- `queue.add` with a `jobId`: a no-op when a job with that id exists. -/
def enqueue (queue : List QueuedJob) (job : QueuedJob) : List QueuedJob :=
  if queue.any (fun q => q.jobId = job.jobId) then queue else queue ++ [job]

/-! ### Webhook intake: `handleProjectsV2Item`
(packages/webhook-server handler for projects_v2_item events).

External interactions (GraphQL status lookup, item details, issue comment
reads) are inputs of the handler; the database `tasks` table and the task
queue are the state it transforms.  Side effects with no orchestration
state (posting confirmation comments) are dropped. -/

/-- Board columns, from `PROJECT_COLUMNS`. -/
inductive Column where
  | icebox
  | todo
  | inProgress
  | humanReview
  | done
  | redo
deriving DecidableEq, Repr

/-- Result of `getProjectItemStatus`: null, a known column, or some other
status string (treated like a non-start column by the handler). -/
inductive StatusResult where
  | missing
  | col (c : Column)
  | other
deriving DecidableEq, Repr

/-- Content type of a project item. -/
inductive ContentType where
  | issue
  | pullRequest
  | draftIssue
deriving DecidableEq, Repr

/-- Result of `getProjectItemDetails`. -/
structure ItemDetails where
  title : Str
  body : Option Str
  contentType : ContentType
  issueNumber : Option Nat
  repositoryId : Option Nat
  repositoryFullName : Option Str
deriving DecidableEq, Repr

/-- `getLinkedRepository`: uses the linked issue/PR repository when both id
and full name are present, otherwise none (draft issue unsupported). -/
def getLinkedRepository (d : ItemDetails) : Option (Nat × Str) :=
  match d.repositoryId, d.repositoryFullName with
  | some rid, some full => some (rid, full)
  | _, _ => none

/-- The inputs of one `handleProjectsV2Item` invocation: the event payload
fields and the results of its external queries.  `nonce` stands for
`Date.now()`, `freshTaskId` for the id the insert returns. -/
structure WebhookEnv where
  nodeId : Nat
  projectNodeId : Nat
  installationId : Nat
  changesNonField : Bool
  statusResult : StatusResult
  itemDetails : Option ItemDetails
  humanComment : Option Str
  prFeedback : Option Str
  nonce : Nat
  freshTaskId : Nat
deriving DecidableEq, Repr

/-- Orchestration state touched by the webhook handlers. -/
structure OrchState where
  tasksTable : List TaskRow
  taskQueue : List QueuedJob
deriving DecidableEq, Repr

/-- `select().from(tasks).where(eq(tasks.githubProjectItemId, node_id))`,
destructured to its first row. -/
def findTaskByItem (table : List TaskRow) (nodeId : Nat) : Option TaskRow :=
  table.find? (fun t => t.githubProjectItemId = nodeId)

/-- `db.update(tasks).set(...).where(eq(tasks.id, id))`. -/
def updateTaskRows (table : List TaskRow) (id : Nat) (f : TaskRow → TaskRow) :
    List TaskRow :=
  table.map (fun t => if t.id = id then f t else t)

/-- The `humanAnswer` computed in the return-from-human-review branch:
the latest human comment, when the item is an issue with a repository. -/
def humanAnswerOf (env : WebhookEnv) : Option Str :=
  match env.itemDetails with
  | some d =>
    if d.contentType = .issue ∧ d.issueNumber.isSome
        ∧ d.repositoryFullName.isSome then
      env.humanComment
    else none
  | none => none

/-- The update applied to the task row on return from human review. -/
def hrReturnUpdate (answer : Option Str) (nonce : Nat) (t : TaskRow) : TaskRow :=
  { t with status := .pending, humanReviewAnswer := answer, updatedAt := nonce }

/-- The update applied to the task row on the Redo (PR feedback) path. -/
def redoUpdate (feedback : Option Str) (nonce : Nat) (t : TaskRow) : TaskRow :=
  { t with status := .pending, humanReviewAnswer := feedback,
           errorMessage := none, updatedAt := nonce }

/-- The task row inserted for a fresh board item. -/
def newTaskOf (env : WebhookEnv) (d : ItemDetails) (repo : Nat × Str) : TaskRow :=
  { id := env.freshTaskId,
    githubProjectItemId := env.nodeId,
    githubProjectId := env.projectNodeId,
    repositoryFullName := repo.2,
    installationId := env.installationId,
    title := d.title, description := d.body,
    status := .pending, branchName := none,
    pullRequestNumber := none, pullRequestUrl := none,
    errorMessage := none, humanReviewQuestion := none,
    humanReviewAnswer := none, retryCount := 0,
    isEpic := false, parentTaskId := none,
    childDependencies := [], createdAt := env.nonce,
    updatedAt := env.nonce, startedAt := none,
    completedAt := none }

/-- `handleProjectsV2Item` of the webhook server, as a transformer of the
orchestration state. -/
def handleProjectsV2Item (env : WebhookEnv) (s : OrchState) : OrchState :=
  if env.changesNonField then s
  else
    match env.statusResult with
    | .missing => s
    | .other => s
    | .col c =>
      let isStartColumn := c = .todo
      let isRedoColumn := c = .redo
      if ¬isStartColumn ∧ ¬isRedoColumn then s
      else
        match findTaskByItem s.tasksTable env.nodeId with
        | some existingTask =>
          if existingTask.status = .human_review then
            { tasksTable :=
                updateTaskRows s.tasksTable existingTask.id
                  (hrReturnUpdate (humanAnswerOf env) env.nonce)
              taskQueue :=
                enqueue s.taskQueue
                  { jobId := .decomposeRetry existingTask.id env.nonce,
                    taskId := existingTask.id, action := .decompose } }
          else if existingTask.status = .pr_created ∧ isRedoColumn then
            { tasksTable :=
                updateTaskRows s.tasksTable existingTask.id
                  (redoUpdate
                    (if existingTask.pullRequestNumber.isSome then env.prFeedback
                     else none) env.nonce)
              taskQueue :=
                enqueue s.taskQueue
                  { jobId := .decomposeRedo existingTask.id env.nonce,
                    taskId := existingTask.id, action := .decompose } }
          else s
        | none =>
          match env.itemDetails with
          | none => s
          | some d =>
            match getLinkedRepository d with
            | none => s
            | some repo =>
              { tasksTable := s.tasksTable ++ [newTaskOf env d repo]
                taskQueue :=
                  enqueue s.taskQueue
                    { jobId := .decompose env.freshTaskId,
                      taskId := env.freshTaskId, action := .decompose } }

/-! ### Webhook intake: `handlePullRequest`
(packages/webhook-server/src/handlers/pull-request.ts). -/

/-- Pull-request record statuses. -/
inductive PrStatus where
  | open
  | merged
  | closed
deriving DecidableEq, Repr

/-- A row of the `pull_requests` table (the columns the handler touches). -/
structure PrRow where
  id : Nat
  taskId : Nat
  branchName : Str
  headSha : Str
  status : PrStatus
  mergedAt : Option Nat
  updatedAt : Nat
deriving DecidableEq, Repr

/-- Pull-request webhook actions routed to `handlePullRequest`. -/
inductive PrAction where
  | opened
  | closed
  | synchronize
deriving DecidableEq, Repr

/-- Inputs of one `handlePullRequest` invocation. -/
structure PrEnv where
  action : PrAction
  headRef : Str
  headSha : Str
  merged : Bool
  now : Nat
deriving DecidableEq, Repr

/-- State touched by `handlePullRequest`. -/
structure PrState where
  tasksTable : List TaskRow
  prTable : List PrRow
deriving DecidableEq, Repr

/-- The code units of `"conductor/"`. -/
def conductorBranchPat : Str := strToUnits "conductor/"

/-- `db.update(pull_requests).set(...).where(eq(pullRequests.id, id))`. -/
def updatePrRows (table : List PrRow) (id : Nat) (f : PrRow → PrRow) :
    List PrRow :=
  table.map (fun p => if p.id = id then f p else p)

/-- `handlePullRequest`: on `closed` with `merged`, set the PR row to
`merged` and set the owning task row to `done`; on `closed` without merge,
set the PR row to `closed`; on `synchronize`, update `head_sha`.  The
card movement to "Done" has no database effect and is dropped. -/
def handlePullRequest (env : PrEnv) (s : PrState) : PrState :=
  if ¬ conductorBranchPat.isPrefixOf env.headRef then s
  else
    match s.prTable.find? (fun p => p.branchName = env.headRef) with
    | none => s
    | some prRecord =>
      match env.action with
      | .opened => s
      | .closed =>
        if env.merged then
          { prTable :=
              updatePrRows s.prTable prRecord.id (fun p =>
                { p with status := .merged, mergedAt := some env.now,
                         updatedAt := env.now })
            tasksTable :=
              updateTaskRows s.tasksTable prRecord.taskId (fun t =>
                { t with status := .done, completedAt := some env.now,
                         updatedAt := env.now }) }
        else
          { s with
            prTable :=
              updatePrRows s.prTable prRecord.id (fun p =>
                { p with status := .closed, updatedAt := env.now }) }
      | .synchronize =>
        { s with
          prTable :=
            updatePrRows s.prTable prRecord.id (fun p =>
              { p with headSha := env.headSha, updatedAt := env.now }) }

/-! ### Helper lemmas about the tasks-table primitives. -/

/-- `findTaskByItem` commutes with a per-id update whose function preserves
the board-item id. -/
theorem findTaskByItem_update (l : List TaskRow) (id : Nat) (g : TaskRow → TaskRow)
    (hg : ∀ t, (g t).githubProjectItemId = t.githubProjectItemId) (nid : Nat) :
    findTaskByItem (updateTaskRows l id g) nid =
      (findTaskByItem l nid).map (fun t => if t.id = id then g t else t) := by
  induction l with
  | nil => rfl
  | cons a l ih =>
    have hpres : (if a.id = id then g a else a).githubProjectItemId =
        a.githubProjectItemId := by
      by_cases hid : a.id = id
      · rw [if_pos hid, hg]
      · rw [if_neg hid]
    by_cases ha : a.githubProjectItemId = nid
    · rw [updateTaskRows, List.map_cons, findTaskByItem,
        List.find?_cons_of_pos _ (by simp [hpres, ha]), findTaskByItem,
        List.find?_cons_of_pos _ (by simp [ha])]
      rfl
    · rw [updateTaskRows, List.map_cons, findTaskByItem,
        List.find?_cons_of_neg _ (by simp [hpres, ha]), findTaskByItem,
        List.find?_cons_of_neg _ (by simp [ha])]
      exact ih

/-- `findTaskByItem` on a table extended with one inserted row. -/
theorem findTaskByItem_append (l : List TaskRow) (x : TaskRow) (nid : Nat)
    (h : findTaskByItem l nid = none) :
    findTaskByItem (l ++ [x]) nid =
      (if x.githubProjectItemId = nid then some x else none) := by
  rw [findTaskByItem, List.find?_append, ← findTaskByItem, h, Option.none_or]
  by_cases hx : x.githubProjectItemId = nid
  · rw [if_pos hx]
    exact List.find?_cons_of_pos _ (by simp [hx])
  · rw [if_neg hx]
    exact List.find?_cons_of_neg _ (by simp [hx])

/-- Membership in an updated table comes from membership in the original. -/
theorem mem_updateTaskRows (l : List TaskRow) (id : Nat) (g : TaskRow → TaskRow)
    (t' : TaskRow) (h : t' ∈ updateTaskRows l id g) :
    ∃ t ∈ l, t' = if t.id = id then g t else t := by
  rw [updateTaskRows, List.mem_map] at h
  obtain ⟨t, ht, rfl⟩ := h
  exact ⟨t, ht, rfl⟩

/-! ### C1 -/

/-- A task sitting in `human_review`, linked to board item 7. -/
def cexHrTask : TaskRow :=
  { id := 1, githubProjectItemId := 7, githubProjectId := 3,
    repositoryFullName := [], installationId := 1, title := [],
    description := none, status := .human_review, branchName := none,
    pullRequestNumber := none, pullRequestUrl := none, errorMessage := none,
    humanReviewQuestion := none, humanReviewAnswer := none, retryCount := 0,
    isEpic := false, parentTaskId := none, childDependencies := [],
    createdAt := 0, updatedAt := 0, startedAt := none, completedAt := none }

/-- The identical board event for item 7 moved to "Todo". -/
def cexHrEnv : WebhookEnv :=
  { nodeId := 7, projectNodeId := 3, installationId := 1,
    changesNonField := false, statusResult := .col .todo,
    itemDetails := none, humanComment := none, prFeedback := none,
    nonce := 99, freshTaskId := 2 }

/-- C1 counterexample: the webhook handler moves a task from `human_review`
directly to `pending`, although (human_review → pending) is not an edge of
the task state graph — refuting the claim that no handler performs a
non-edge status change. -/
theorem webhook_moves_human_review_to_pending :
    cexHrTask.status = .human_review
    ∧ ((handleProjectsV2Item cexHrEnv
          { tasksTable := [cexHrTask], taskQueue := [] }).tasksTable.map
            TaskRow.status) = [.pending]
    ∧ TaskStatus.pending ∉ TASK_STATUS_TRANSITIONS .human_review := by
  decide

/-- C1 amended: task statuses always lie in the status enum (by typing),
and every status change made through `transitionTaskStatus` is an edge of
the state graph; however the webhook intake bypasses the state machine
with direct row updates: `handleProjectsV2Item` performs exactly the
non-edge moves human_review → pending and pr_created → pending (all other
rows keep their status, and freshly inserted rows start at `pending`), and
`handlePullRequest` on a merged PR sets the owning task to `done` from
whatever status it currently has. -/
theorem task_status_change_policy :
    (∀ task target options now task',
        transitionTaskStatus task target options now = .ok task' →
        target ∈ TASK_STATUS_TRANSITIONS task.status)
    ∧ (∀ env s, (s.tasksTable.map TaskRow.id).Nodup →
        ∀ t' ∈ (handleProjectsV2Item env s).tasksTable,
          (∃ t ∈ s.tasksTable, t.id = t'.id ∧
              (t'.status = t.status
                ∨ (t.status = .human_review ∧ t'.status = .pending)
                ∨ (t.status = .pr_created ∧ t'.status = .pending)))
          ∨ t'.status = .pending)
    ∧ (∀ env s, ∀ t' ∈ (handlePullRequest env s).tasksTable,
        ∃ t ∈ s.tasksTable, t.id = t'.id ∧
          (t'.status = t.status ∨ t'.status = .done)) := by
  refine ⟨?_, ?_, ?_⟩
  · intro task target options now task' h
    by_contra hmem
    rw [transitionTaskStatus, if_neg hmem] at h
    exact Except.noConfusion h
  · intro env s hnodup t' ht'
    have keep : t' ∈ s.tasksTable →
        (∃ t ∈ s.tasksTable, t.id = t'.id ∧
            (t'.status = t.status
              ∨ (t.status = .human_review ∧ t'.status = .pending)
              ∨ (t.status = .pr_created ∧ t'.status = .pending)))
        ∨ t'.status = .pending :=
      fun h => Or.inl ⟨t', h, rfl, Or.inl rfl⟩
    rw [handleProjectsV2Item] at ht'
    by_cases h0 : env.changesNonField
    · rw [if_pos h0] at ht'
      exact keep ht'
    rw [if_neg h0] at ht'
    rcases hst : env.statusResult with _ | c | _ <;> rw [hst] at ht' <;>
      simp only [] at ht'
    · exact keep ht'
    case _ =>
      by_cases hcol : ¬(c = Column.todo) ∧ ¬(c = Column.redo)
      · rw [if_pos hcol] at ht'
        exact keep ht'
      rw [if_neg hcol] at ht'
      rcases hfind : findTaskByItem s.tasksTable env.nodeId with _ | ex <;>
        rw [hfind] at ht' <;> simp only [] at ht'
      · rcases hdet : env.itemDetails with _ | d <;> rw [hdet] at ht' <;>
          simp only [] at ht'
        · exact keep ht'
        rcases hrepo : getLinkedRepository d with _ | repo <;>
          rw [hrepo] at ht' <;> simp only [] at ht'
        · exact keep ht'
        · simp only [List.mem_append, List.mem_singleton] at ht'
          rcases ht' with h | rfl
          · exact keep h
          · exact Or.inr rfl
      · have hexmem : ex ∈ s.tasksTable := List.mem_of_find?_eq_some hfind
        by_cases hhr : ex.status = .human_review
        · rw [if_pos hhr] at ht'
          obtain ⟨t, htmem, rfl⟩ := mem_updateTaskRows _ _ _ _ ht'
          by_cases hid : t.id = ex.id
          · have : t = ex := List.inj_on_of_nodup_map hnodup htmem hexmem hid
            subst this
            exact Or.inl ⟨t, htmem, by simp [hid, hrReturnUpdate],
              Or.inr (Or.inl ⟨hhr, by simp [hid, hrReturnUpdate]⟩)⟩
          · exact Or.inl ⟨t, htmem, by simp [hid], Or.inl (by simp [hid])⟩
        rw [if_neg hhr] at ht'
        by_cases hpr : ex.status = .pr_created ∧ c = Column.redo
        · rw [if_pos hpr] at ht'
          obtain ⟨t, htmem, rfl⟩ := mem_updateTaskRows _ _ _ _ ht'
          by_cases hid : t.id = ex.id
          · have : t = ex := List.inj_on_of_nodup_map hnodup htmem hexmem hid
            subst this
            exact Or.inl ⟨t, htmem, by simp [hid, redoUpdate],
              Or.inr (Or.inr ⟨hpr.1, by simp [hid, redoUpdate]⟩)⟩
          · exact Or.inl ⟨t, htmem, by simp [hid], Or.inl (by simp [hid])⟩
        · rw [if_neg hpr] at ht'
          exact keep ht'
    case _ => exact keep ht'
  · intro env s t' ht'
    rw [handlePullRequest] at ht'
    by_cases hbr : ¬ conductorBranchPat.isPrefixOf env.headRef
    · rw [if_pos hbr] at ht'
      exact ⟨t', ht', rfl, Or.inl rfl⟩
    rw [if_neg hbr] at ht'
    rcases hfind : s.prTable.find? (fun p => p.branchName = env.headRef)
      with _ | prRecord <;> rw [hfind] at ht' <;> simp only [] at ht'
    · exact ⟨t', ht', rfl, Or.inl rfl⟩
    rcases hact : env.action with _ | _ | _ <;> rw [hact] at ht' <;>
      simp only [] at ht'
    · exact ⟨t', ht', rfl, Or.inl rfl⟩
    · by_cases hm : env.merged
      · rw [if_pos hm] at ht'
        obtain ⟨t, htmem, rfl⟩ := mem_updateTaskRows _ _ _ _ ht'
        by_cases hid : t.id = prRecord.taskId
        · exact ⟨t, htmem, by simp [hid], Or.inr (by simp [hid])⟩
        · exact ⟨t, htmem, by simp [hid], Or.inl (by simp [hid])⟩
      · rw [if_neg hm] at ht'
        exact ⟨t', ht', rfl, Or.inl rfl⟩
    · exact ⟨t', ht', rfl, Or.inl rfl⟩

/-- An event for a branch outside the `conductor/` namespace. -/
def prEnvOther : PrEnv :=
  { action := .opened, headRef := [], headSha := [], merged := false, now := 0 }

/-- Witness for `task_status_change_policy` at concrete inputs. -/
theorem task_status_change_policy_witness :
    ∃ t ∈ [cexHrTask], t.id = cexHrTask.id ∧
      (cexHrTask.status = t.status ∨ cexHrTask.status = .done) :=
  task_status_change_policy.2.2 prEnvOther
    { tasksTable := [cexHrTask], prTable := [] } cexHrTask (by decide)

/-- `handleProjectsV2Item` is a no-op whenever, for the branch it would
take, the existing-task lookup and item details rule out all three acting
branches. -/
theorem handleProjectsV2Item_noop (env : WebhookEnv) (s : OrchState)
    (h : ∀ c, env.statusResult = .col c → (c = Column.todo ∨ c = Column.redo) →
      ¬ env.changesNonField →
      (∃ t, findTaskByItem s.tasksTable env.nodeId = some t
          ∧ t.status ≠ .human_review
          ∧ ¬(t.status = .pr_created ∧ c = Column.redo))
      ∨ (findTaskByItem s.tasksTable env.nodeId = none ∧
          (env.itemDetails = none
            ∨ ∃ d, env.itemDetails = some d ∧ getLinkedRepository d = none))) :
    handleProjectsV2Item env s = s := by
  rw [handleProjectsV2Item]
  by_cases h0 : env.changesNonField
  · rw [if_pos h0]
  · rw [if_neg h0]
    rcases hst : env.statusResult with _ | c | _
    · rfl
    · simp only []
      by_cases hcol : ¬(c = Column.todo) ∧ ¬(c = Column.redo)
      · rw [if_pos hcol]
      · rw [if_neg hcol]
        have hor : c = Column.todo ∨ c = Column.redo := by
          by_contra hno
          push_neg at hno
          exact hcol ⟨hno.1, hno.2⟩
        rcases h c hst hor h0 with ⟨t, hft, hhr, hpr⟩ | ⟨hfn, hdet⟩
        · rw [hft]
          simp only []
          rw [if_neg hhr, if_neg hpr]
        · rw [hfn]
          simp only []
          rcases hdet with hnone | ⟨d, hd, hrnone⟩
          · rw [hnone]
          · rw [hd]
            simp only []
            rw [hrnone]
    · rfl

/-- C5: re-delivering the identical board webhook event (same item, same
board status, same item details; a fresh timestamp and insert id) leaves
the orchestration state exactly as after the first delivery — zero
additional task rows and zero additional queued jobs, in all branches of
the handler. -/
theorem webhook_redelivery_noop (e1 e2 : WebhookEnv) (s : OrchState)
    (hnode : e2.nodeId = e1.nodeId)
    (hchg : e2.changesNonField = e1.changesNonField)
    (hst : e2.statusResult = e1.statusResult)
    (hdet : e2.itemDetails = e1.itemDetails) :
    handleProjectsV2Item e2 (handleProjectsV2Item e1 s) = handleProjectsV2Item e1 s
    ∧ (handleProjectsV2Item e2 (handleProjectsV2Item e1 s)).tasksTable.length
        = (handleProjectsV2Item e1 s).tasksTable.length
    ∧ (handleProjectsV2Item e2 (handleProjectsV2Item e1 s)).taskQueue.length
        = (handleProjectsV2Item e1 s).taskQueue.length := by
  suffices hmain :
      handleProjectsV2Item e2 (handleProjectsV2Item e1 s) =
        handleProjectsV2Item e1 s by
    exact ⟨hmain, by rw [hmain], by rw [hmain]⟩
  by_cases h0 : e1.changesNonField
  · have h1 : handleProjectsV2Item e1 s = s := by
      rw [handleProjectsV2Item, if_pos h0]
    rw [h1, handleProjectsV2Item, if_pos (hchg.trans h0)]
  rcases hst1 : e1.statusResult with _ | c | _
  · have h1 : handleProjectsV2Item e1 s = s := by
      rw [handleProjectsV2Item, if_neg h0, hst1]
    rw [h1]
    apply handleProjectsV2Item_noop
    intro c2 hc2 _ _
    rw [hst, hst1] at hc2
    exact StatusResult.noConfusion hc2
  · by_cases hcol : ¬(c = Column.todo) ∧ ¬(c = Column.redo)
    · have h1 : handleProjectsV2Item e1 s = s := by
        rw [handleProjectsV2Item, if_neg h0, hst1]
        simp only []
        rw [if_pos hcol]
      rw [h1]
      apply handleProjectsV2Item_noop
      intro c2 hc2 hor2 _
      rw [hst, hst1] at hc2
      cases hc2
      exact absurd hor2 (by push_neg; exact ⟨hcol.1, hcol.2⟩)
    · rcases hf : findTaskByItem s.tasksTable e1.nodeId with _ | ex
      · rcases hd1 : e1.itemDetails with _ | d
        · have h1 : handleProjectsV2Item e1 s = s := by
            rw [handleProjectsV2Item, if_neg h0, hst1]
            simp only []
            rw [if_neg hcol, hf]
            simp only []
            rw [hd1]
          rw [h1]
          apply handleProjectsV2Item_noop
          intro c2 _ _ _
          right
          rw [hnode]
          exact ⟨hf, Or.inl (hdet.trans hd1)⟩
        · rcases hrepo : getLinkedRepository d with _ | repo
          · have h1 : handleProjectsV2Item e1 s = s := by
              rw [handleProjectsV2Item, if_neg h0, hst1]
              simp only []
              rw [if_neg hcol, hf]
              simp only []
              rw [hd1]
              simp only []
              rw [hrepo]
            rw [h1]
            apply handleProjectsV2Item_noop
            intro c2 _ _ _
            right
            rw [hnode]
            exact ⟨hf, Or.inr ⟨d, hdet.trans hd1, hrepo⟩⟩
          · have h1 : handleProjectsV2Item e1 s =
                { tasksTable := s.tasksTable ++ [newTaskOf e1 d repo]
                  taskQueue :=
                    enqueue s.taskQueue
                      { jobId := .decompose e1.freshTaskId,
                        taskId := e1.freshTaskId, action := .decompose } } := by
              rw [handleProjectsV2Item, if_neg h0, hst1]
              simp only []
              rw [if_neg hcol, hf]
              simp only []
              rw [hd1]
              simp only []
              rw [hrepo]
            rw [h1]
            apply handleProjectsV2Item_noop
            intro c2 _ _ _
            left
            refine ⟨newTaskOf e1 d repo, ?_, by simp [newTaskOf], by simp [newTaskOf]⟩
            simp only []
            rw [hnode, findTaskByItem_append _ _ _ hf,
              if_pos (by simp [newTaskOf])]
      · by_cases hhr : ex.status = .human_review
        · have h1 : handleProjectsV2Item e1 s =
              { tasksTable :=
                  updateTaskRows s.tasksTable ex.id
                    (hrReturnUpdate (humanAnswerOf e1) e1.nonce)
                taskQueue :=
                  enqueue s.taskQueue
                    { jobId := .decomposeRetry ex.id e1.nonce,
                      taskId := ex.id, action := .decompose } } := by
            rw [handleProjectsV2Item, if_neg h0, hst1]
            simp only []
            rw [if_neg hcol, hf]
            simp only []
            rw [if_pos hhr]
          rw [h1]
          apply handleProjectsV2Item_noop
          intro c2 _ _ _
          left
          refine ⟨hrReturnUpdate (humanAnswerOf e1) e1.nonce ex, ?_,
            by simp [hrReturnUpdate], by simp [hrReturnUpdate]⟩
          simp only []
          rw [hnode,
            findTaskByItem_update s.tasksTable ex.id
              (hrReturnUpdate (humanAnswerOf e1) e1.nonce) (fun t => rfl)
              e1.nodeId, hf]
          simp
        · by_cases hpr : ex.status = .pr_created ∧ c = Column.redo
          · have h1 : handleProjectsV2Item e1 s =
                { tasksTable :=
                    updateTaskRows s.tasksTable ex.id
                      (redoUpdate
                        (if ex.pullRequestNumber.isSome then e1.prFeedback
                         else none) e1.nonce)
                  taskQueue :=
                    enqueue s.taskQueue
                      { jobId := .decomposeRedo ex.id e1.nonce,
                        taskId := ex.id, action := .decompose } } := by
              rw [handleProjectsV2Item, if_neg h0, hst1]
              simp only []
              rw [if_neg hcol, hf]
              simp only []
              rw [if_neg hhr, if_pos hpr]
            rw [h1]
            apply handleProjectsV2Item_noop
            intro c2 _ _ _
            left
            refine ⟨redoUpdate
                (if ex.pullRequestNumber.isSome then e1.prFeedback else none)
                e1.nonce ex, ?_,
              by simp [redoUpdate], by simp [redoUpdate]⟩
            simp only []
            rw [hnode,
              findTaskByItem_update s.tasksTable ex.id
                (redoUpdate
                  (if ex.pullRequestNumber.isSome then e1.prFeedback else none)
                  e1.nonce) (fun t => rfl) e1.nodeId, hf]
            simp
          · have h1 : handleProjectsV2Item e1 s = s := by
              rw [handleProjectsV2Item, if_neg h0, hst1]
              simp only []
              rw [if_neg hcol, hf]
              simp only []
              rw [if_neg hhr, if_neg hpr]
            rw [h1]
            apply handleProjectsV2Item_noop
            intro c2 hc2 _ _
            rw [hst, hst1] at hc2
            cases hc2
            exact Or.inl ⟨ex, hnode ▸ hf, hhr, hpr⟩
  · have h1 : handleProjectsV2Item e1 s = s := by
      rw [handleProjectsV2Item, if_neg h0, hst1]
    rw [h1]
    apply handleProjectsV2Item_noop
    intro c2 hc2 _ _
    rw [hst, hst1] at hc2
    exact StatusResult.noConfusion hc2

/-- Witness for `webhook_redelivery_noop`: the concrete human-review
return event delivered twice. -/
theorem webhook_redelivery_noop_witness :
    handleProjectsV2Item cexHrEnv
        (handleProjectsV2Item cexHrEnv { tasksTable := [cexHrTask], taskQueue := [] })
      = handleProjectsV2Item cexHrEnv { tasksTable := [cexHrTask], taskQueue := [] } :=
  (webhook_redelivery_noop cexHrEnv cexHrEnv
    { tasksTable := [cexHrTask], taskQueue := [] } rfl rfl rfl rfl).1

/-! ### C6: epic child queueing
(`handleEpicExecute` / `queueEpicChildTasks` in the task processor). -/

/-- The `titleToTask` map built via `new Map(childTasks.map(t => [t.title, t]))`;
on duplicate titles the later entry wins, so lookup searches from the end. -/
def lookupByTitle (children : List TaskRow) (title : Str) : Option TaskRow :=
  children.reverse.find? (fun t => t.title = title)

/-- The `unmetDeps` filter of `handleEpicExecute`: a dependency title is
unmet iff it resolves to a sibling whose status is not `done`; a title
resolving to no sibling is not counted as unmet. -/
def unmetDeps (children : List TaskRow) (child : TaskRow) : List Str :=
  child.childDependencies.filter (fun depTitle =>
    match lookupByTitle children depTitle with
    | some depTask => decide (depTask.status ≠ .done)
    | none => false)

/-- Whether `handleEpicExecute` enqueues a `decompose` job for `child`:
the loop skips non-`pending` children and enqueues when `unmetDeps` is
empty. -/
def epicEnqueuesChild (children : List TaskRow) (child : TaskRow) : Bool :=
  child.status = .pending && (unmetDeps children child).isEmpty

/-- The per-pass job additions of `handleEpicExecute` over the children. -/
def epicChildJobs (children : List TaskRow) (queue : List QueuedJob) :
    List QueuedJob :=
  children.foldl
    (fun q child =>
      if epicEnqueuesChild children child then
        enqueue q { jobId := .decompose child.id, taskId := child.id,
                    action := .decompose }
      else q)
    queue

/-- A pending epic child whose single dependency title resolves to no
sibling. -/
def cexOrphanChild : TaskRow :=
  { id := 5, githubProjectItemId := 50, githubProjectId := 3,
    repositoryFullName := [], installationId := 1, title := [97],
    description := none, status := .pending, branchName := none,
    pullRequestNumber := none, pullRequestUrl := none, errorMessage := none,
    humanReviewQuestion := none, humanReviewAnswer := none, retryCount := 0,
    isEpic := false, parentTaskId := some 4, childDependencies := [[120]],
    createdAt := 0, updatedAt := 0, startedAt := none, completedAt := none }

/-- C6 counterexample: a pending child whose dependency title "x" resolves
to no sibling IS enqueued by the code (an unresolvable title is not
counted as unmet), refuting the claim that such a child is not enqueued. -/
theorem epic_orphan_dependency_enqueued :
    epicEnqueuesChild [cexOrphanChild] cexOrphanChild = true
    ∧ ¬ (∀ dep ∈ cexOrphanChild.childDependencies,
          ∃ sib ∈ [cexOrphanChild], sib.title = dep ∧ sib.status = .done)
    ∧ (epicChildJobs [cexOrphanChild] []).length = 1 := by
  refine ⟨by decide, ?_, by decide⟩
  intro h
  have := h [120] (by decide)
  revert this
  decide

/-- C6 amended: for every epic pass, a child is enqueued for decomposition
iff its status is `pending` and every dependency title that resolves to a
sibling (most recent sibling with that title) resolves to one whose
status is `done`; dependency titles resolving to no sibling are ignored
(treated as met) rather than blocking the child. -/
theorem epic_child_enqueue_characterized (children : List TaskRow)
    (child : TaskRow) :
    epicEnqueuesChild children child = true ↔
      (child.status = .pending ∧
        ∀ dep ∈ child.childDependencies, ∀ depTask,
          lookupByTitle children dep = some depTask → depTask.status = .done) := by
  rw [epicEnqueuesChild, Bool.and_eq_true, decide_eq_true_eq,
    List.isEmpty_iff, unmetDeps, List.filter_eq_nil_iff]
  constructor
  · rintro ⟨hp, hdeps⟩
    refine ⟨hp, fun dep hdep depTask hlook => ?_⟩
    have := hdeps dep hdep
    rw [hlook] at this
    simpa using this
  · rintro ⟨hp, hdeps⟩
    refine ⟨hp, fun dep hdep => ?_⟩
    rcases hlook : lookupByTitle children dep with _ | depTask
    · simp
    · simpa using hdeps dep hdep depTask hlook

/-- Witness for `epic_child_enqueue_characterized` at the concrete orphan
child. -/
theorem epic_child_enqueue_characterized_witness :
    epicEnqueuesChild [cexOrphanChild] cexOrphanChild = true :=
  (epic_child_enqueue_characterized [cexOrphanChild] cexOrphanChild).mpr
    ⟨by decide, fun dep hdep depTask hlook => by
      revert hlook
      have : lookupByTitle [cexOrphanChild] dep = none := by
        have hd : dep = [120] := by simpa [cexOrphanChild] using hdep
        subst hd
        decide
      rw [this]
      intro h
      exact Option.noConfusion h⟩

/-! ### C2: review outcome handling
(`handleReview` in the task processor). -/

/-- A code-review issue, from the `CodeReviewIssue` type. -/
structure CodeReviewIssue where
  file : Str
  line : Option Nat
  severity : Severity
  message : Str
  suggestion : Option Str
deriving DecidableEq, Repr

/-- JSON string escaping of `"` and `\` (the characters relevant here). -/
def escapeJsonUnits (s : Str) : Str :=
  s.foldr
    (fun c acc =>
      if c = 34 then 92 :: 34 :: acc
      else if c = 92 then 92 :: 92 :: acc
      else c :: acc)
    []

/-- A JSON string literal. -/
def quoteJson (s : Str) : Str := 34 :: (escapeJsonUnits s ++ [34])

/-- Decimal digits of a number, as code units. -/
def natToUnits (n : Nat) : Str := (Nat.toDigits 10 n).map Char.toNat

/-- The JSON name of a severity. -/
def severityUnits : Severity → Str
  | .error => strToUnits "error"
  | .warning => strToUnits "warning"
  | .suggestion => strToUnits "suggestion"

/-- JSON object for one issue (code unit 123 is the opening brace,
125 the closing one, 58 the colon, 44 the comma). -/
def issueJsonUnits (i : CodeReviewIssue) : Str :=
  [123]
  ++ quoteJson (strToUnits "file") ++ [58] ++ quoteJson i.file ++ [44]
  ++ quoteJson (strToUnits "line") ++ [58]
  ++ (match i.line with
      | some n => natToUnits n
      | none => strToUnits "null") ++ [44]
  ++ quoteJson (strToUnits "severity") ++ [58]
  ++ quoteJson (severityUnits i.severity) ++ [44]
  ++ quoteJson (strToUnits "message") ++ [58] ++ quoteJson i.message ++ [44]
  ++ quoteJson (strToUnits "suggestion") ++ [58]
  ++ (match i.suggestion with
      | some sg => quoteJson sg
      | none => strToUnits "null")
  ++ [125]

/-- Comma-join. -/
def joinCommaSep : List Str → Str
  | [] => []
  | [x] => x
  | x :: y :: xs => x ++ 44 :: joinCommaSep (y :: xs)

/-- `JSON.stringify(reviewResult.issues)`: the issues list as a JSON array
(91/93 are the square brackets). -/
def jsonStringifyIssues (issues : List CodeReviewIssue) : Str :=
  91 :: (joinCommaSep (issues.map issueJsonUnits) ++ [93])

/-- The review outcome returned by `CodeReviewAgent.review`. -/
structure ReviewOutput where
  result : CodeReviewResult
  issues : List CodeReviewIssue
  summary : Str
  iteration : Nat
deriving DecidableEq, Repr

/-- The literal `'Code review failed after maximum iterations'`. -/
def maxIterationsMessage : Str :=
  strToUnits "Code review failed after maximum iterations"

/-- The dispatch on the review result inside `handleReview` of the task
processor: approved → enqueue `smoke_test` or `create_pr`; otherwise, if
`iteration < 3`, store the issues as JSON in `errorMessage`, transition to
`executing` and enqueue `fix`; otherwise transition to `failed`. -/
def handleReviewOutcome (task : TaskRow) (reviewResult : ReviewOutput)
    (requireSmokeTest : Bool) (queue : List QueuedJob) (now : Nat) :
    Except StateError (TaskRow × List QueuedJob) :=
  if reviewResult.result = .approved then
    if requireSmokeTest then
      .ok (task, enqueue queue
        { jobId := .smokeTest task.id, taskId := task.id, action := .smoke_test })
    else
      .ok (task, enqueue queue
        { jobId := .createPr task.id, taskId := task.id, action := .create_pr })
  else
    if reviewResult.iteration < 3 then
      match transitionTaskStatus
          { task with
            errorMessage := some (jsonStringifyIssues reviewResult.issues),
            updatedAt := now }
          .executing noTaskOptions now with
      | .ok task2 =>
        .ok (task2, enqueue queue
          { jobId := .fixIter task.id reviewResult.iteration,
            taskId := task.id, action := .fix })
      | .error e => .error e
    else
      match transitionTaskStatus task .failed
          { noTaskOptions with errorMessage := some maxIterationsMessage } now with
      | .ok task2 => .ok (task2, queue)
      | .error e => .error e

/-- C2: for a task in `review` whose code review returns
`changes_requested`: when `iteration < maxIterations` (3) the processor
stores the issues list in `errorMessage` as a JSON string, transitions
review → executing, and enqueues a `fix` job; at or beyond the limit it
instead transitions to `failed` with "Code review failed after maximum
iterations" and enqueues no fix job. -/
theorem review_changes_requested_contract (task : TaskRow) (r : ReviewOutput)
    (smoke : Bool) (queue : List QueuedJob) (now : Nat)
    (hstatus : task.status = .review)
    (hres : r.result = .changes_requested) :
    (r.iteration < 3 →
      ∃ task', handleReviewOutcome task r smoke queue now =
          .ok (task', enqueue queue
            { jobId := .fixIter task.id r.iteration,
              taskId := task.id, action := .fix })
        ∧ task'.status = .executing
        ∧ task'.errorMessage = some (jsonStringifyIssues r.issues))
    ∧ (3 ≤ r.iteration →
      ∃ task', handleReviewOutcome task r smoke queue now = .ok (task', queue)
        ∧ task'.status = .failed
        ∧ task'.errorMessage = some maxIterationsMessage) := by
  have hna : ¬ (r.result = CodeReviewResult.approved) := by
    rw [hres]
    intro h
    exact CodeReviewResult.noConfusion h
  constructor
  · intro hlt
    rw [handleReviewOutcome, if_neg hna, if_pos hlt]
    have hedge : TaskStatus.executing ∈ TASK_STATUS_TRANSITIONS
        ({ task with
            errorMessage := some (jsonStringifyIssues r.issues),
            updatedAt := now } : TaskRow).status := by
      show TaskStatus.executing ∈ TASK_STATUS_TRANSITIONS task.status
      rw [hstatus]
      decide
    rw [transitionTaskStatus, if_pos hedge]
    exact ⟨_, rfl, rfl, by simp [noTaskOptions]⟩
  · intro hge
    rw [handleReviewOutcome, if_neg hna, if_neg (Nat.not_lt.mpr hge)]
    have hedge : TaskStatus.failed ∈ TASK_STATUS_TRANSITIONS task.status := by
      rw [hstatus]
      decide
    rw [transitionTaskStatus, if_pos hedge]
    exact ⟨_, rfl, rfl, by simp [noTaskOptions]⟩

/-- A concrete task in `review`. -/
def reviewStageTask : TaskRow := { cexHrTask with id := 9, status := .review }

/-- Witness for `review_changes_requested_contract`: a first-iteration
changes-requested review on a concrete task in `review`. -/
theorem review_changes_requested_contract_witness :
    ∃ task', handleReviewOutcome reviewStageTask
        { result := .changes_requested, issues := [], summary := [], iteration := 1 }
        false [] 7 =
        .ok (task', enqueue []
          { jobId := .fixIter reviewStageTask.id 1,
            taskId := reviewStageTask.id, action := .fix })
      ∧ task'.status = .executing
      ∧ task'.errorMessage = some (jsonStringifyIssues []) :=
  (review_changes_requested_contract reviewStageTask
    { result := .changes_requested, issues := [], summary := [], iteration := 1 }
    false [] 7 (by decide) rfl).1 (by decide)

/-! ### C7: the agent runner's stdout handling
(`ClaudeRunner.run` in packages/agents/src/claude-runner.ts).

The stdout data handler appends every chunk to the accumulated output;
`CLAUDE_CODE_SETTINGS.maxOutputSize` is declared but never consulted, and
`kill()` is invoked only by the wall-clock timer. -/

/-- `CLAUDE_CODE_SETTINGS.maxOutputSize` (1 MiB), from
packages/core/src/constants/index.ts. -/
def maxOutputSize : Nat := 1024 * 1024

/-- The result shape of `ClaudeRunner.run`. -/
structure AgentOutputModel where
  success : Bool
  output : Str
  exitCode : Int
  killed : Bool
deriving DecidableEq, Repr

/-- `ClaudeRunner.run`: stdout chunks are accumulated with `stdout += chunk`
(no size check anywhere); `killed` is set only when the timeout timer
fires; `success` iff exit code 0 and not killed. -/
def claudeRunnerRun (chunks : List Str) (exitCode : Int) (timedOut : Bool) :
    AgentOutputModel :=
  { success := decide (exitCode = 0) && !timedOut
    output := chunks.foldl (fun acc c => acc ++ c) []
    exitCode := exitCode
    killed := timedOut }

/-- A single stdout chunk one byte over the 1 MiB cap. -/
def overCapChunk : Str := List.replicate (1024 * 1024 + 1) 97

/-- C7: the claim that output beyond `maxOutputSize = 1 MiB` terminates the
run fails on the code — the constant is declared but never enforced.  A
run whose stdout exceeds the cap is not killed and completes successfully
with the full over-sized output captured. -/
theorem output_cap_not_enforced :
    (claudeRunnerRun [overCapChunk] 0 false).output.length > maxOutputSize
    ∧ (claudeRunnerRun [overCapChunk] 0 false).killed = false
    ∧ (claudeRunnerRun [overCapChunk] 0 false).success = true := by
  refine ⟨?_, rfl, rfl⟩
  show (List.foldl (fun acc c => acc ++ c) [] [overCapChunk]).length > maxOutputSize
  rw [List.foldl_cons, List.foldl_nil, List.nil_append, overCapChunk,
    List.length_replicate, maxOutputSize]
  omega

/-! ### C3 and C8: the subtask processor
(`subtaskProcessor` in the worker, with `SubAgent.execute`).

`SubAgent.execute` resolves (does not throw) even when the runner was
killed by its wall-clock timeout: the returned result merely has
`success = false`.  The processor never reads `result.success`; its catch
block fires only on thrown exceptions. -/

/-- The result shape of `SubAgent.execute`. -/
structure SubAgentResultModel where
  success : Bool
  filesModified : List Str
  inputTokens : Nat
  outputTokens : Nat
deriving DecidableEq, Repr

/-- Errors escaping the subtask processor. -/
inductive ProcError where
  | state (e : StateError)
  | agentFailure
deriving DecidableEq, Repr

/-- `err.message` of a processor error. -/
def procErrorMessage : ProcError → Str
  | .state (.invalidTaskTransition _ _ _) =>
    strToUnits "Invalid task state transition"
  | .state (.invalidSubtaskTransition _ _ _) =>
    strToUnits "Invalid subtask state transition"
  | .agentFailure => strToUnits "Agent execution failed"

/-- Outcome of one `subtaskProcessor` job: the final subtask row, the final
status of the agent-run row (none when no row was inserted), whether the
agent was actually invoked, and the error rethrown to the queue (if any). -/
structure SubtaskProcOutcome where
  subtaskRow : SubtaskRow
  runStatus : Option AgentRunStatus
  agentInvoked : Bool
  thrown : Option ProcError
deriving DecidableEq, Repr

/-- The catch block of `subtaskProcessor`: transition the subtask to
`failed` with the error message, then rethrow; if that transition itself
throws, the new error propagates instead. -/
def subtaskCatch (current : SubtaskRow) (runStatus : Option AgentRunStatus)
    (invoked : Bool) (err : ProcError) (now : Nat) : SubtaskProcOutcome :=
  match transitionSubtaskStatus current .failed
      { noSubtaskOptions with errorMessage := some (procErrorMessage err) } now with
  | .ok s' =>
    { subtaskRow := s', runStatus := runStatus, agentInvoked := invoked,
      thrown := some err }
  | .error e2 =>
    { subtaskRow := current, runStatus := runStatus, agentInvoked := invoked,
      thrown := some (.state e2) }

/-- `subtaskProcessor`: transition pending → queued → running, insert the
agent-run row (`starting`), attach the run id (running → running), mark
the run `running`, invoke the agent; on a resolved result write the stats,
mark the run `completed` and the subtask `completed`; thrown exceptions go
through the catch block.  `agentResult = none` models the agent throwing. -/
def subtaskProcessorModel (subtask : SubtaskRow) (runId : Nat)
    (agentResult : Option SubAgentResultModel) (now : Nat) : SubtaskProcOutcome :=
  match transitionSubtaskStatus subtask .queued noSubtaskOptions now with
  | .error e => subtaskCatch subtask none false (.state e) now
  | .ok s1 =>
    match transitionSubtaskStatus s1 .running noSubtaskOptions now with
    | .error e => subtaskCatch s1 none false (.state e) now
    | .ok s2 =>
      match transitionSubtaskStatus s2 .running
          { noSubtaskOptions with agentRunId := some runId } now with
      | .error e => subtaskCatch s2 (some .starting) false (.state e) now
      | .ok s3 =>
        match agentResult with
        | none => subtaskCatch s3 (some .running) true .agentFailure now
        | some result =>
          match transitionSubtaskStatus s3 .completed
              { noSubtaskOptions with filesModified := some result.filesModified }
              now with
          | .ok s4 =>
            { subtaskRow := s4, runStatus := some .completed,
              agentInvoked := true, thrown := none }
          | .error e => subtaskCatch s3 (some .completed) true (.state e) now

/-- C3: a run killed by its wall-clock timeout resolves with
`success = false`, but the processor ignores `result.success`: the
agent-run row ends `completed` (never `timeout` — no code path writes
that status) and the subtask ends `completed`, contradicting the claim
that the timeout is recorded and propagates as a subtask failure. -/
theorem timeout_run_recorded_completed (subtask : SubtaskRow) (runId : Nat)
    (r : SubAgentResultModel) (now : Nat)
    (hpending : subtask.status = .pending)
    (hkilled : r.success = false) :
    (subtaskProcessorModel subtask runId (some r) now).subtaskRow.status = .completed
    ∧ (subtaskProcessorModel subtask runId (some r) now).runStatus = some .completed
    ∧ (subtaskProcessorModel subtask runId (some r) now).thrown = none := by
  obtain ⟨i, tid, sp, ttl, st, dep, ar, fm, em, ua, sa, ca⟩ := subtask
  simp only [] at hpending
  subst hpending
  exact ⟨rfl, rfl, rfl⟩

/-- A concrete pending subtask. -/
def samplePendingSubtask : SubtaskRow :=
  { id := 11, taskId := 9, subprojectPath := [46], title := [],
    status := .pending, dependsOn := [], agentRunId := none,
    filesModified := [], errorMessage := none, updatedAt := 0,
    startedAt := none, completedAt := none }

/-- Witness for `timeout_run_recorded_completed`: a concrete timed-out run
(`success = false`) still ends with the subtask `completed`. -/
theorem timeout_run_recorded_completed_witness :
    (subtaskProcessorModel samplePendingSubtask 3
        (some { success := false, filesModified := [], inputTokens := 0,
                outputTokens := 0 }) 5).subtaskRow.status = .completed :=
  (timeout_run_recorded_completed samplePendingSubtask 3
    { success := false, filesModified := [], inputTokens := 0, outputTokens := 0 }
    5 (by decide) (by decide)).1

/-- C8: a retried queue job for a subtask already in `failed` throws an
`InvalidStateTransitionError` at its very first status transition
(failed → queued is not an edge; the catch block's own failed → failed
transition then throws as well) and the agent is never invoked — the
queue-level retry does not re-execute the subtask's work. -/
theorem failed_subtask_retry_throws (subtask : SubtaskRow) (runId : Nat)
    (agentResult : Option SubAgentResultModel) (now : Nat)
    (hfailed : subtask.status = .failed) :
    subtaskProcessorModel subtask runId agentResult now =
      { subtaskRow := subtask, runStatus := none, agentInvoked := false,
        thrown := some (.state
          (.invalidSubtaskTransition subtask.id .failed .failed)) }
    ∧ SubtaskStatus.queued ∉ SUBTASK_STATUS_TRANSITIONS .failed := by
  refine ⟨?_, by decide⟩
  obtain ⟨i, tid, sp, ttl, st, dep, ar, fm, em, ua, sa, ca⟩ := subtask
  simp only [] at hfailed
  subst hfailed
  rfl

/-- A concrete subtask already in `failed` (after a first failed attempt). -/
def failedRetrySubtask : SubtaskRow :=
  { samplePendingSubtask with id := 12, status := .failed }

/-- Witness for `failed_subtask_retry_throws` at the concrete subtask. -/
theorem failed_subtask_retry_throws_witness :
    subtaskProcessorModel failedRetrySubtask 3 none 5 =
      { subtaskRow := failedRetrySubtask, runStatus := none,
        agentInvoked := false,
        thrown := some (.state
          (.invalidSubtaskTransition failedRetrySubtask.id .failed .failed)) } :=
  (failed_subtask_retry_throws failedRetrySubtask 3 none 5 (by decide)).1

/-! ### C9: branch-name generation
(`sanitizeBranchName` / `generateBranchName` in packages/core/src/utils).

Code unit 45 is `-`, 65..90 are `A..Z`, 97..122 are `a..z`, 48..57 digits.
The JS regex pipeline is mirrored step by step: `toLowerCase`, replace
all units outside `[a-z0-9-]` by a dash, collapse every run of dashes,
trim the trim-regex way (one leading and one trailing dash removed),
then `slice(0, 50)`. -/

/-- ASCII `toLowerCase` on one code unit. -/
def lowerCU (c : Nat) : Nat := if 65 ≤ c ∧ c ≤ 90 then c + 32 else c

/-- Whether the unit matches `[a-z0-9-]` (kept by the first replace). -/
def keepCU (c : Nat) : Bool :=
  decide ((97 ≤ c ∧ c ≤ 122) ∨ (48 ≤ c ∧ c ≤ 57) ∨ c = 45)

/-- The replacement of every unit outside `[a-z0-9-]` by a dash, per unit. -/
def substCU (c : Nat) : Nat := if keepCU c then c else 45

/-- The dash-run collapse: each run of dashes becomes one dash. -/
def collapseDashes : Str → Str
  | [] => []
  | c :: rest =>
    match rest with
    | [] => [c]
    | d :: _ =>
      if c = 45 ∧ d = 45 then collapseDashes rest
      else c :: collapseDashes rest

/-- Removal of one leading dash (the `^-` alternative of the trim regex). -/
def dropOneLeadDash : Str → Str
  | [] => []
  | c :: rest => if c = 45 then rest else c :: rest

/-- Removal of one trailing dash (the `-$` alternative of the trim regex). -/
def dropOneTrailDash : Str → Str
  | [] => []
  | [c] => if c = 45 then [] else [c]
  | c :: d :: rest => c :: dropOneTrailDash (d :: rest)

/-- The JS trim step: one leading and one trailing dash removed. -/
def trimDashesJS (s : Str) : Str := dropOneTrailDash (dropOneLeadDash s)

/-- `sanitizeBranchName` of packages/core/src/utils/index.ts. -/
def sanitizeBranchName (s : Str) : Str :=
  (trimDashesJS (collapseDashes ((s.map lowerCU).map substCU))).take 50

/-- JS `String.replace` with a plain-string pattern: replaces the first
occurrence only. -/
def replaceFirst : Str → Str → Str → Str
  | [], _, _ => []
  | c :: rest, pat, repl =>
    if pat.isPrefixOf (c :: rest) then repl ++ (c :: rest).drop pat.length
    else c :: replaceFirst rest pat repl

/-- The code units of the `\x7btask_id\x7d` placeholder. -/
def taskIdToken : Str := strToUnits "\x7btask_id\x7d"

/-- The code units of the `\x7bshort_description\x7d` placeholder. -/
def shortDescToken : Str := strToUnits "\x7bshort_description\x7d"

/-- `generateBranchName` of packages/core/src/utils/index.ts. -/
def generateBranchName (pattern taskId description : Str) : Str :=
  replaceFirst (replaceFirst pattern taskIdToken (taskId.take 8))
    shortDescToken (sanitizeBranchName description)

/-- Modelled from the spec's words: a character is alphanumeric. -/
def specIsAlnum (c : Nat) : Bool :=
  decide ((97 ≤ c ∧ c ≤ 122) ∨ (48 ≤ c ∧ c ≤ 57) ∨ (65 ≤ c ∧ c ≤ 90))

/-- Modelled from the spec's words: every non-alphanumeric character is
replaced by `-`. -/
def specSubstCU (c : Nat) : Nat := if specIsAlnum c then c else 45

/-- Modelled from the spec's words: "lowercased, non-alnum → `-`,
collapsed, trimmed, 50-char max". -/
def specSanitize (s : Str) : Str :=
  (trimDashesJS (collapseDashes ((s.map lowerCU).map specSubstCU))).take 50

/-- Lowercasing never yields an upper-case letter. -/
theorem lowerCU_not_upper (c : Nat) : ¬(65 ≤ lowerCU c ∧ lowerCU c ≤ 90) := by
  unfold lowerCU
  split <;> omega

/-- On lowercased units the source's `[^a-z0-9-]` replacement agrees with
the spec's "non-alphanumeric → `-`" description. -/
theorem substCU_lowerCU_eq (c : Nat) :
    substCU (lowerCU c) = specSubstCU (lowerCU c) := by
  have hc := lowerCU_not_upper c
  generalize lowerCU c = x at hc
  unfold substCU specSubstCU
  by_cases h45 : x = 45
  · subst h45
    rfl
  · by_cases h : (97 ≤ x ∧ x ≤ 122) ∨ (48 ≤ x ∧ x ≤ 57)
    · rw [if_pos (show keepCU x = true by simp only [keepCU, decide_eq_true_eq]; tauto),
        if_pos (show specIsAlnum x = true by simp only [specIsAlnum, decide_eq_true_eq]; tauto)]
    · rw [if_neg (show ¬ keepCU x = true by simp only [keepCU, decide_eq_true_eq]; tauto),
        if_neg (show ¬ specIsAlnum x = true by simp only [specIsAlnum, decide_eq_true_eq]; tauto)]

/-- Pointwise-equal functions give equal maps. -/
theorem map_congr_fix {α β : Type} (f g : α → β) (l : List α)
    (h : ∀ a ∈ l, f a = g a) : l.map f = l.map g := by
  induction l with
  | nil => rfl
  | cons a t ih =>
    rw [List.map_cons, List.map_cons, h a (List.mem_cons_self a t),
      ih (fun b hb => h b (List.mem_cons_of_mem a hb))]

/-- The source sanitiser equals the spec-worded sanitiser. -/
theorem sanitizeBranchName_eq_specSanitize (s : Str) :
    sanitizeBranchName s = specSanitize s := by
  unfold sanitizeBranchName specSanitize
  rw [show (s.map lowerCU).map substCU = (s.map lowerCU).map specSubstCU from ?_]
  apply map_congr_fix
  intro a ha
  rw [List.mem_map] at ha
  obtain ⟨c, _, rfl⟩ := ha
  exact substCU_lowerCU_eq c

/-- No two adjacent dashes. -/
def noDoubleDash : Str → Bool
  | [] => true
  | [_] => true
  | a :: b :: r => !(decide (a = 45) && decide (b = 45)) && noDoubleDash (b :: r)

/-- Unfolding equation for the collapse on two-or-more lists. -/
theorem collapseDashes_cons_cons (a d : Nat) (r : Str) :
    collapseDashes (a :: d :: r) =
      if a = 45 ∧ d = 45 then collapseDashes (d :: r)
      else a :: collapseDashes (d :: r) := rfl

/-- A dash-pair bound read off a `noDoubleDash` list. -/
theorem noDoubleDash_cons_head (a : Nat) (l : Str) (z : Nat)
    (h : noDoubleDash (a :: l) = true) (hz : l.head? = some z) :
    ¬(a = 45 ∧ z = 45) := by
  cases l with
  | nil => simp at hz
  | cons b r =>
    simp only [List.head?_cons, Option.some.injEq] at hz
    subst hz
    simp only [noDoubleDash, Bool.and_eq_true, Bool.not_eq_true',
      Bool.and_eq_false_iff, decide_eq_false_iff_not] at h
    intro hcon
    rcases h.1 with h1 | h1
    · exact h1 hcon.1
    · exact h1 hcon.2

/-- `noDoubleDash` restricted to the tail. -/
theorem noDoubleDash_tail (a : Nat) (l : Str)
    (h : noDoubleDash (a :: l) = true) : noDoubleDash l = true := by
  cases l with
  | nil => rfl
  | cons b r =>
    simp only [noDoubleDash, Bool.and_eq_true] at h
    exact h.2

/-- `noDoubleDash` built from a tail and a head bound. -/
theorem noDoubleDash_cons_of (a : Nat) (l : Str)
    (h : noDoubleDash l = true)
    (hh : ∀ z, l.head? = some z → ¬(a = 45 ∧ z = 45)) :
    noDoubleDash (a :: l) = true := by
  cases l with
  | nil => rfl
  | cons b r =>
    simp only [noDoubleDash, Bool.and_eq_true, Bool.not_eq_true',
      Bool.and_eq_false_iff, decide_eq_false_iff_not]
    refine ⟨?_, h⟩
    have hb := hh b (by rw [List.head?_cons])
    by_cases ha : a = 45
    · exact Or.inr (fun hbb => hb ⟨ha, hbb⟩)
    · exact Or.inl ha

/-- Every unit of the collapsed list occurs in the original. -/
theorem mem_collapseDashes (l : Str) : ∀ c ∈ collapseDashes l, c ∈ l := by
  induction l with
  | nil => intro c hc; exact absurd hc (by intro h; exact List.not_mem_nil c h)
  | cons a rest ih =>
    intro c hc
    cases rest with
    | nil =>
      rw [show collapseDashes [a] = [a] from rfl] at hc
      exact hc
    | cons d r =>
      rw [collapseDashes_cons_cons] at hc
      by_cases hdd : a = 45 ∧ d = 45
      · rw [if_pos hdd] at hc
        exact List.mem_cons_of_mem a (ih c hc)
      · rw [if_neg hdd] at hc
        rcases List.mem_cons.mp hc with hca | hc
        · rw [hca]
          exact List.mem_cons_self a (d :: r)
        · exact List.mem_cons_of_mem a (ih c hc)

/-- The head of a collapsed nonempty list is the original head, or a dash
when the original head was a dash. -/
theorem head?_collapseDashes (a : Nat) (l : Str) :
    (collapseDashes (a :: l)).head? = some a
    ∨ (a = 45 ∧ (collapseDashes (a :: l)).head? = some 45) := by
  induction l generalizing a with
  | nil => exact Or.inl rfl
  | cons d r ih =>
    rw [collapseDashes_cons_cons]
    by_cases hdd : a = 45 ∧ d = 45
    · rw [if_pos hdd]
      rcases ih d with h | h
      · exact Or.inr ⟨hdd.1, hdd.2 ▸ h⟩
      · exact Or.inr ⟨hdd.1, h.2⟩
    · rw [if_neg hdd]
      exact Or.inl rfl

/-- The collapse output has no adjacent dashes. -/
theorem noDoubleDash_collapseDashes (l : Str) :
    noDoubleDash (collapseDashes l) = true := by
  induction l with
  | nil => rfl
  | cons a rest ih =>
    cases rest with
    | nil => rfl
    | cons d r =>
      rw [collapseDashes_cons_cons]
      by_cases hdd : a = 45 ∧ d = 45
      · rw [if_pos hdd]
        exact ih
      · rw [if_neg hdd]
        apply noDoubleDash_cons_of a _ ih
        intro z hz
        rcases head?_collapseDashes d r with h | h
        · rw [h] at hz
          cases hz
          exact hdd
        · rw [h.2] at hz
          cases hz
          intro hcon
          exact hdd ⟨hcon.1, h.1⟩

/-- A list without adjacent dashes is a fixed point of the collapse. -/
theorem collapseDashes_of_noDoubleDash (l : Str)
    (h : noDoubleDash l = true) : collapseDashes l = l := by
  induction l with
  | nil => rfl
  | cons a rest ih =>
    cases rest with
    | nil => rfl
    | cons d r =>
      rw [collapseDashes_cons_cons,
        if_neg (noDoubleDash_cons_head a (d :: r) d h (by rw [List.head?_cons])),
        ih (noDoubleDash_tail a _ h)]

/-- Units of the lead-dash-trimmed list occur in the original. -/
theorem mem_dropOneLeadDash (l : Str) : ∀ c ∈ dropOneLeadDash l, c ∈ l := by
  cases l with
  | nil => intro c hc; exact hc
  | cons a rest =>
    intro c hc
    rw [dropOneLeadDash] at hc
    by_cases ha : a = 45
    · rw [if_pos ha] at hc
      exact List.mem_cons_of_mem a hc
    · rw [if_neg ha] at hc
      exact hc

/-- Units of the trail-dash-trimmed list occur in the original. -/
theorem mem_dropOneTrailDash (l : Str) : ∀ c ∈ dropOneTrailDash l, c ∈ l := by
  induction l with
  | nil => intro c hc; exact hc
  | cons a rest ih =>
    intro c hc
    cases rest with
    | nil =>
      rw [dropOneTrailDash] at hc
      by_cases ha : a = 45
      · rw [if_pos ha] at hc
        exact absurd hc (List.not_mem_nil c)
      · rw [if_neg ha] at hc
        exact hc
    | cons d r =>
      rw [dropOneTrailDash] at hc
      rcases List.mem_cons.mp hc with hca | hc
      · rw [hca]
        exact List.mem_cons_self a (d :: r)
      · exact List.mem_cons_of_mem a (ih c hc)

/-- The trail trim keeps the head. -/
theorem head?_dropOneTrailDash (l : Str) (z : Nat)
    (h : (dropOneTrailDash l).head? = some z) : l.head? = some z := by
  cases l with
  | nil => exact h
  | cons a rest =>
    cases rest with
    | nil =>
      rw [dropOneTrailDash] at h
      by_cases ha : a = 45
      · rw [if_pos ha] at h
        exact Option.noConfusion h
      · rw [if_neg ha] at h
        exact h
    | cons d r =>
      rw [dropOneTrailDash] at h
      exact h

/-- The lead trim preserves `noDoubleDash`. -/
theorem noDoubleDash_dropOneLeadDash (l : Str)
    (h : noDoubleDash l = true) : noDoubleDash (dropOneLeadDash l) = true := by
  cases l with
  | nil => exact h
  | cons a rest =>
    rw [dropOneLeadDash]
    by_cases ha : a = 45
    · rw [if_pos ha]
      exact noDoubleDash_tail a rest h
    · rw [if_neg ha]
      exact h

/-- The trail trim preserves `noDoubleDash`. -/
theorem noDoubleDash_dropOneTrailDash (l : Str)
    (h : noDoubleDash l = true) : noDoubleDash (dropOneTrailDash l) = true := by
  induction l with
  | nil => exact h
  | cons a rest ih =>
    cases rest with
    | nil =>
      rw [dropOneTrailDash]
      by_cases ha : a = 45
      · rw [if_pos ha]
        rfl
      · rw [if_neg ha]
        exact h
    | cons d r =>
      rw [dropOneTrailDash]
      apply noDoubleDash_cons_of a _ (ih (noDoubleDash_tail a _ h))
      intro z hz
      exact noDoubleDash_cons_head a (d :: r) z h
        (head?_dropOneTrailDash (d :: r) z hz)

/-- A prefix keeps the head. -/
theorem head?_take (n : Nat) (l : Str) (z : Nat)
    (h : (l.take n).head? = some z) : l.head? = some z := by
  cases n with
  | zero => exact Option.noConfusion h
  | succ m =>
    cases l with
    | nil => exact h
    | cons a rest => exact h

/-- Taking a prefix preserves `noDoubleDash`. -/
theorem noDoubleDash_take (n : Nat) (l : Str)
    (h : noDoubleDash l = true) : noDoubleDash (l.take n) = true := by
  induction l generalizing n with
  | nil => rw [List.take_nil]; rfl
  | cons a rest ih =>
    cases n with
    | zero => rfl
    | succ m =>
      rw [List.take_succ_cons]
      apply noDoubleDash_cons_of a _ (ih m (noDoubleDash_tail a _ h))
      intro z hz
      exact noDoubleDash_cons_head a rest z h (head?_take m rest z hz)

/-- A dash-free head survives the lead trim unchanged. -/
theorem dropOneLeadDash_id (l : Str)
    (h : ∀ z, l.head? = some z → z ≠ 45) : dropOneLeadDash l = l := by
  cases l with
  | nil => rfl
  | cons a rest =>
    rw [dropOneLeadDash, if_neg (h a (by rw [List.head?_cons]))]

/-- A dash-free last unit survives the trail trim unchanged. -/
theorem dropOneTrailDash_id (l : Str)
    (h : ∀ z, l.getLast? = some z → z ≠ 45) : dropOneTrailDash l = l := by
  induction l with
  | nil => rfl
  | cons a rest ih =>
    cases rest with
    | nil =>
      rw [dropOneTrailDash, if_neg (h a rfl)]
    | cons d r =>
      rw [dropOneTrailDash,
        ih (fun z hz => h z (List.getLast?_cons_cons.symm ▸ hz))]

/-- After the lead trim of a `noDoubleDash` list the head is not a dash. -/
theorem head?_dropOneLeadDash_ne (l : Str) (h : noDoubleDash l = true) :
    ∀ z, (dropOneLeadDash l).head? = some z → z ≠ 45 := by
  cases l with
  | nil => intro z hz; exact absurd hz (by simp [dropOneLeadDash])
  | cons a rest =>
    intro z hz
    rw [dropOneLeadDash] at hz
    by_cases ha : a = 45
    · rw [if_pos ha] at hz
      intro hz45
      exact noDoubleDash_cons_head a rest z h hz ⟨ha, hz45⟩
    · rw [if_neg ha] at hz
      rw [List.head?_cons, Option.some.injEq] at hz
      rw [hz] at ha
      exact ha

/-- All units lie in `[a-z0-9-]`. -/
def KeepOnly (l : Str) : Prop := ∀ c ∈ l, keepCU c = true

/-- The first replace only produces kept units. -/
theorem keepCU_substCU (c : Nat) : keepCU (substCU c) = true := by
  unfold substCU
  by_cases h : keepCU c
  · rwa [if_pos h]
  · rw [if_neg h]
    decide

/-- Kept units are lowercase-fixed. -/
theorem lowerCU_fix (c : Nat) (h : keepCU c = true) : lowerCU c = c := by
  unfold lowerCU
  rw [if_neg]
  simp only [keepCU, decide_eq_true_eq] at h
  omega

/-- Kept units are replace-fixed. -/
theorem substCU_fix (c : Nat) (h : keepCU c = true) : substCU c = c := by
  unfold substCU
  rw [if_pos h]

/-- A pointwise-fixed map is the identity. -/
theorem map_id_of_fix (f : Nat → Nat) (l : Str) (h : ∀ c ∈ l, f c = c) :
    l.map f = l := by
  induction l with
  | nil => rfl
  | cons a t ih =>
    rw [List.map_cons, h a (List.mem_cons_self a t),
      ih (fun b hb => h b (List.mem_cons_of_mem a hb))]

/-- Sanitised output only contains units of `[a-z0-9-]`. -/
theorem keepOnly_sanitize (s : Str) : KeepOnly (sanitizeBranchName s) := by
  intro c hc
  rw [sanitizeBranchName, trimDashesJS] at hc
  have h1 := List.take_subset 50 _ hc
  have h2 := mem_dropOneTrailDash _ c h1
  have h3 := mem_dropOneLeadDash _ c h2
  have h4 := mem_collapseDashes _ c h3
  rw [List.mem_map] at h4
  obtain ⟨x, _, rfl⟩ := h4
  exact keepCU_substCU x

/-- Sanitised output has no adjacent dashes. -/
theorem noDoubleDash_sanitize (s : Str) :
    noDoubleDash (sanitizeBranchName s) = true := by
  rw [sanitizeBranchName, trimDashesJS]
  exact noDoubleDash_take 50 _
    (noDoubleDash_dropOneTrailDash _
      (noDoubleDash_dropOneLeadDash _ (noDoubleDash_collapseDashes _)))

/-- Sanitised output never starts with a dash. -/
theorem head?_sanitize_ne (s : Str) :
    ∀ z, (sanitizeBranchName s).head? = some z → z ≠ 45 := by
  intro z hz
  rw [sanitizeBranchName, trimDashesJS] at hz
  have h1 := head?_take 50 _ z hz
  have h2 := head?_dropOneTrailDash _ z h1
  exact head?_dropOneLeadDash_ne _ (noDoubleDash_collapseDashes _) z h2

/-- Sanitised output is at most 50 units long. -/
theorem length_sanitize_le (s : Str) : (sanitizeBranchName s).length ≤ 50 :=
  List.length_take_le 50 _

/-- When the 50-unit truncation does not end on a dash, sanitising twice is
the same as sanitising once. -/
theorem sanitizeBranchName_idem_of_getLast (s : Str)
    (h : (sanitizeBranchName s).getLast? ≠ some 45) :
    sanitizeBranchName (sanitizeBranchName s) = sanitizeBranchName s := by
  have hk := keepOnly_sanitize s
  have hn := noDoubleDash_sanitize s
  have hh := head?_sanitize_ne s
  have hl := length_sanitize_le s
  show (trimDashesJS (collapseDashes
    (((sanitizeBranchName s).map lowerCU).map substCU))).take 50
      = sanitizeBranchName s
  rw [map_id_of_fix lowerCU _ (fun c hc => lowerCU_fix c (hk c hc)),
    map_id_of_fix substCU _ (fun c hc => substCU_fix c (hk c hc)),
    collapseDashes_of_noDoubleDash _ hn,
    trimDashesJS,
    dropOneLeadDash_id _ hh,
    dropOneTrailDash_id _ (fun z hz hz45 => h (hz45 ▸ hz)),
    List.take_of_length_le hl]

/-- Alternating `a-` pairs. -/
def dashAltPairs : Nat → Str
  | 0 => []
  | n + 1 => 45 :: 97 :: dashAltPairs n

/-- A 51-unit title `a-a-…-a` whose sanitised form is cut at unit 50,
right after a dash. -/
def capBoundaryInput : Str := 97 :: dashAltPairs 25

/-- C9 counterexample: sanitisation is not idempotent — the 50-character
truncation can expose a trailing dash that a second application removes. -/
theorem sanitize_not_idempotent_at_cap :
    sanitizeBranchName (sanitizeBranchName capBoundaryInput)
      ≠ sanitizeBranchName capBoundaryInput := by decide

/-- C9 amended: `generateBranchName` deterministically replaces the
task-id placeholder with the first 8 units of the task id and the
short-description placeholder with the title sanitised exactly as the
spec words it (lowercased, non-alphanumeric → `-`, runs collapsed,
leading/trailing dash trimmed, capped at 50); the result of sanitisation
is at most 50 units; and sanitisation is idempotent except that the
50-unit truncation may leave a trailing dash — on every input whose
sanitised form does not end in a dash, re-sanitising is the identity. -/
theorem generateBranchName_spec :
    (∀ pattern taskId description,
        generateBranchName pattern taskId description =
          replaceFirst (replaceFirst pattern taskIdToken (taskId.take 8))
            shortDescToken (specSanitize description))
    ∧ (∀ s, (sanitizeBranchName s).length ≤ 50)
    ∧ (∀ s, (sanitizeBranchName s).getLast? ≠ some 45 →
        sanitizeBranchName (sanitizeBranchName s) = sanitizeBranchName s) := by
  refine ⟨?_, length_sanitize_le, sanitizeBranchName_idem_of_getLast⟩
  intro p t d
  rw [generateBranchName, sanitizeBranchName_eq_specSanitize]

/-- Witness for `generateBranchName_spec`: a concrete title whose
sanitised form does not end in a dash is a fixed point of re-sanitising. -/
theorem generateBranchName_spec_witness :
    sanitizeBranchName (sanitizeBranchName (strToUnits "Hello World!"))
      = sanitizeBranchName (strToUnits "Hello World!") :=
  generateBranchName_spec.2.2 (strToUnits "Hello World!") (by decide)

/-! ### C10: the code-review response parse
(`CodeReviewAgent.performReview`).

The response regex demands a fenced block opened by three backticks plus
`json` and a newline and closed by a newline plus three backticks.  The
lazy capture takes the earliest open fence and the earliest close after
it; if no close fence follows the first open fence, none follows any
later one either, so the whole match fails. -/

/-- Split at the first occurrence of `pat`: the part before it and the
part after it. -/
def splitOnFirst (pat : Str) : Str → Option (Str × Str)
  | [] => if pat.isPrefixOf [] then some ([], []) else none
  | c :: rest =>
    if pat.isPrefixOf (c :: rest) then some ([], (c :: rest).drop pat.length)
    else
      match splitOnFirst pat rest with
      | some (pre, post) => some (c :: pre, post)
      | none => none

/-- The opening fence of the review regex. -/
def openFence : Str := strToUnits "```json\n"

/-- The closing fence of the review regex. -/
def closeFence : Str := strToUnits "\n```"

/-- The capture of the first fenced JSON block, or none. -/
def findJsonBlock (text : Str) : Option Str :=
  match splitOnFirst openFence text with
  | none => none
  | some (_, rest) =>
    match splitOnFirst closeFence rest with
    | none => none
    | some (content, _) => some content

/-- The parsed shape of the model's review JSON. -/
structure ReviewJson where
  result : CodeReviewResult
  summary : Str
  issues : List CodeReviewIssue
deriving DecidableEq, Repr

/-- `CODE_REVIEW_SETTINGS.passThreshold`. -/
def passThreshold : Nat := 0

/-- The response handling of `performReview`: with no fenced JSON block the
review is `approved` with the first 500 units as summary and no issues;
with a block, `JSON.parse` runs (a parse failure throws), then the pass
threshold may force `approved`. -/
def performReviewOutcome (parseJson : Str → Option ReviewJson) (text : Str) :
    Except Unit ReviewJson :=
  match findJsonBlock text with
  | none => .ok { result := .approved, summary := text.take 500, issues := [] }
  | some block =>
    match parseJson block with
    | none => .error ()
    | some review =>
      if (review.issues.filter (fun i => i.severity = Severity.error)).length
          ≤ passThreshold then
        .ok { review with result := .approved }
      else .ok review

/-- C10: whenever the LLM response contains no fenced JSON block, the
review is recorded as `approved` with an empty issues list and the first
500 units of the response as summary — never `changes_requested` or
`failed`, whatever the JSON parser would do. -/
theorem review_parse_fail_open (parseJson : Str → Option ReviewJson)
    (text : Str) (h : findJsonBlock text = none) :
    performReviewOutcome parseJson text =
      .ok { result := .approved, summary := text.take 500, issues := [] } := by
  rw [performReviewOutcome, h]

/-- Witness for `review_parse_fail_open` on a concrete fence-free response,
with a parser that would report failure if it were consulted. -/
theorem review_parse_fail_open_witness :
    performReviewOutcome
        (fun _ => some { result := .failed, summary := [], issues := [] })
        (strToUnits "All good.") =
      .ok { result := .approved, summary := (strToUnits "All good.").take 500,
            issues := [] } :=
  review_parse_fail_open
    (fun _ => some { result := .failed, summary := [], issues := [] })
    (strToUnits "All good.") (by decide)
